import Mathlib

/-!
Verification of the Rigol WFM decoder (`wfm.py`) of pyRigolWFM.

The development shallowly embeds the two components of the core:

* the generic binary record reader `_parseFile` (descriptor-driven field
  reading with `require`/`expect` validation rules), and
* the waveform decoding pipeline `parseRigolWFM` (point-count inheritance,
  payload-size arithmetic, file-version detection, sample reading, and the
  interpretation of headers into the final scope-data structure).

Streams are lists of bytes (`List Nat`, each entry `< 256` in practice).
Python floats are modelled by `F32`: an exact rational for finite values plus
the special values `inf`, `-inf` and `nan`; arithmetic on finite values is
exact rational arithmetic (rounding is abstracted away), while the special
values follow IEEE semantics.  Python exceptions are modelled by the `PError`
type: the decoder's own `FormatError` plus the built-in exception classes the
code can raise (`struct.error` on short reads, `AssertionError` from `assert`
statements, `IndexError` from out-of-range tuple indexing, `EOFError` from
`array.fromfile`, `KeyError` from dict lookups, `ZeroDivisionError`,
`ValueError`).
-/

/-- Python exception classes reachable from the decoder. `formatError` is the
decoder's own exception type; the others are Python built-ins. -/
inductive PError where
  | formatError (msg : String)
  | structError
  | assertionError
  | indexError
  | eofError
  | keyError
  | zeroDivisionError
  | valueError
deriving DecidableEq, Inhabited

/-- Is an error the decoder's own `FormatError`? -/
def PError.isFormatError : PError → Bool
  | .formatError _ => true
  | _ => false

/-- Python float: exact rational for finite values, plus IEEE special values.
(-0.0 is identified with 0.0; the two compare equal and have identical
truthiness in Python, which is all the decoder observes.) -/
inductive F32 where
  | finite (q : ℚ)
  | inf
  | neginf
  | nan
deriving DecidableEq, Inhabited

/-- Python truthiness of a float: `0.0` is falsy, everything else (including
`nan` and the infinities) is truthy. -/
def f32Truthy : F32 → Bool
  | .finite q => q != 0
  | _ => true

def fneg : F32 → F32
  | .finite q => .finite (-q)
  | .inf => .neginf
  | .neginf => .inf
  | .nan => .nan

def fadd : F32 → F32 → F32
  | .nan, _ => .nan
  | _, .nan => .nan
  | .finite a, .finite b => .finite (a + b)
  | .inf, .inf => .inf
  | .inf, .neginf => .nan
  | .neginf, .inf => .nan
  | .neginf, .neginf => .neginf
  | .inf, .finite _ => .inf
  | .finite _, .inf => .inf
  | .neginf, .finite _ => .neginf
  | .finite _, .neginf => .neginf

def fsub (a b : F32) : F32 := fadd a (fneg b)

def fmul : F32 → F32 → F32
  | .nan, _ => .nan
  | _, .nan => .nan
  | .finite a, .finite b => .finite (a * b)
  | .inf, .inf => .inf
  | .inf, .neginf => .neginf
  | .neginf, .inf => .neginf
  | .neginf, .neginf => .inf
  | .inf, .finite b => if 0 < b then .inf else if b < 0 then .neginf else .nan
  | .finite a, .inf => if 0 < a then .inf else if a < 0 then .neginf else .nan
  | .neginf, .finite b => if 0 < b then .neginf else if b < 0 then .inf else .nan
  | .finite a, .neginf => if 0 < a then .neginf else if a < 0 then .inf else .nan

/-- Float division assuming a nonzero divisor (callers guard the zero case,
which in Python raises `ZeroDivisionError`; see `fdivChecked`). Finite
division is exact rational division. -/
def fdiv : F32 → F32 → F32
  | .nan, _ => .nan
  | _, .nan => .nan
  | .finite a, .finite b => .finite (a / b)
  | .inf, .inf => .nan
  | .inf, .neginf => .nan
  | .neginf, .inf => .nan
  | .neginf, .neginf => .nan
  | .finite _, .inf => .finite 0
  | .finite _, .neginf => .finite 0
  | .inf, .finite b => if 0 ≤ b then .inf else .neginf
  | .neginf, .finite b => if 0 ≤ b then .neginf else .inf

/-- Python `/` on floats: raises `ZeroDivisionError` when the divisor is zero,
otherwise divides. -/
def fdivChecked (a b : F32) : Except PError F32 :=
  if b = F32.finite 0 then .error .zeroDivisionError else .ok (fdiv a b)

/-- Python float equality (`==`): `nan` is not equal to anything. -/
def f32eqb : F32 → F32 → Bool
  | .finite a, .finite b => a == b
  | .inf, .inf => true
  | .neginf, .neginf => true
  | _, _ => false

/-- Python float strict order (`<`): any comparison with `nan` is false. -/
def f32ltb : F32 → F32 → Bool
  | .finite a, .finite b => a < b
  | .finite _, .inf => true
  | .neginf, .finite _ => true
  | .neginf, .inf => true
  | _, _ => false

def f32leb (a b : F32) : Bool := f32ltb a b || f32eqb a b

/-- Python sequence indexing `l[i]`: nonnegative indices from the front,
negative indices wrap from the back; out of range is `IndexError` (`none`). -/
def pyIndex {α : Type} (l : List α) (i : Int) : Option α :=
  if 0 ≤ i then l.get? i.toNat
  else if (-i).toNat ≤ l.length then l.get? (l.length - (-i).toNat) else none

/-! ## The binary record reader (`_parseFile`) -/

/-- The `struct` type codes used by the descriptors: `i`/`h`/`q` signed
4/2/8-byte ints, `B`/`H`/`I` unsigned 1/2/4-byte ints, `f` 4-byte float,
`Ns` an `N`-byte block. -/
inductive PrimType where
  | pi
  | ph
  | pB
  | pI
  | pq
  | pH
  | pf
  | ps (n : Nat)
deriving DecidableEq

/-- Size in bytes (`struct.calcsize`) of a single little-endian type code. -/
def psize : PrimType → Nat
  | .pi => 4
  | .ph => 2
  | .pB => 1
  | .pI => 4
  | .pq => 8
  | .pH => 2
  | .pf => 4
  | .ps n => n

/-- The two validation-rule scopes of `_parseFile`. -/
inductive Scope where
  | expect
  | require
deriving DecidableEq

/-- The comparison operators accepted by `_parseFile`. -/
inductive CondOp where
  | ceq
  | cge
  | cle
  | clt
  | cgt
  | cin
deriving DecidableEq

/-- The literal a decoded value is compared against: an integer, a byte
block, or a set of integers (tuple/range/list in the source). -/
inductive MatchVal where
  | mint (n : Int)
  | mbytes (bs : List Nat)
  | mset (l : List Int)
deriving DecidableEq

/-- A validation rule `(scope, condition, match)`. -/
structure Test where
  scope : Scope
  op : CondOp
  val : MatchVal
deriving DecidableEq

mutual
/-- A field's type in a record descriptor: a primitive with an optional
validation rule, or a nested sub-descriptor (mutually with `Desc`). -/
inductive FieldTy where
  | prim (t : PrimType) (test : Option Test)
  | nest (sub : Desc)
/-- The ordered sequence of named fields of a record descriptor. -/
inductive Desc where
  | dnil
  | dcons (name : String) (ty : FieldTy) (rest : Desc)
end

/-- Build a `Desc` from a list of named field types. -/
def descOfList (l : List (String × FieldTy)) : Desc :=
  l.foldr (fun p rest => Desc.dcons p.1 p.2 rest) Desc.dnil

/-- A decoded value: integer, byte block, or float. -/
inductive Value where
  | vint (n : Int)
  | vbytes (bs : List Nat)
  | vfloat (x : F32)
deriving DecidableEq

/-- A decoded record: the ordered field-name/value mapping produced by
`_parseFile` (an `OrderedDict` in the source). -/
inductive RValue where
  | rval (v : Value)
  | rrec (fields : List (String × RValue))

/-- Little-endian bytes-to-natural decoding. -/
def leNat (bs : List Nat) : Nat := bs.foldr (fun b acc => b + 256 * acc) 0

/-- Two's-complement reinterpretation of a `w`-byte unsigned value. -/
def toSigned (u : Nat) (w : Nat) : Int :=
  if u < 2 ^ (8 * w - 1) then (u : Int) else (u : Int) - 2 ^ (8 * w)

/-- IEEE-754 binary32 decoding of 4 little-endian bytes, with finite values
taken exactly as rationals. -/
def decodeF32 (bs : List Nat) : F32 :=
  let w : ℕ := leNat bs
  let sgn : ℕ := w / 2 ^ 31
  let e : ℕ := (w / 2 ^ 23) % 2 ^ 8
  let frac : ℕ := w % 2 ^ 23
  if e = 255 then
    if frac = 0 then (if sgn = 0 then .inf else .neginf) else .nan
  else
    let mag : ℚ :=
      if e = 0 then (frac : ℚ) / 2 ^ 149
      else ((2 ^ 23 + frac : ℕ) : ℚ) * (2 : ℚ) ^ ((e : ℤ) - 150)
    .finite (if sgn = 0 then mag else -mag)

/-- Decoding (`struct.unpack`) of one little-endian field from its exact bytes. -/
def decodePrim (t : PrimType) (bs : List Nat) : Value :=
  match t with
  | .pB => .vint (leNat bs)
  | .pH => .vint (leNat bs)
  | .pI => .vint (leNat bs)
  | .ph => .vint (toSigned (leNat bs) 2)
  | .pi => .vint (toSigned (leNat bs) 4)
  | .pq => .vint (toSigned (leNat bs) 8)
  | .pf => .vfloat (decodeF32 bs)
  | .ps _ => .vbytes bs

/-- Reading one field: `f.read(calcsize(fmt))` followed by `struct.unpack`.  If the stream holds
fewer bytes than the field needs, `struct.unpack` raises `struct.error`
(modelled as `structError`); otherwise the field's bytes are consumed and
decoded. -/
def readPrim (t : PrimType) (s : List Nat) : Except PError (Value × List Nat) :=
  if s.length < psize t then .error .structError
  else .ok (decodePrim t (s.take (psize t)), s.drop (psize t))

/-- Dynamic comparison `value <op> match` for the value/operator/literal combinations
the descriptors use: numeric comparisons between ints/floats and an integer
literal (Python compares ints and floats numerically and exactly),
byte-block equality, and integer set membership. -/
def evalTest (v : Value) (op : CondOp) (m : MatchVal) : Bool :=
  match m with
  | .mbytes bs =>
    match v, op with
    | .vbytes vb, .ceq => vb == bs
    | _, _ => false
  | .mset l =>
    match v, op with
    | .vint n, .cin => l.contains n
    | _, _ => false
  | .mint n =>
    match v with
    | .vbytes _ => false
    | .vint k =>
      match op with
      | .ceq => k == n
      | .cge => decide (n ≤ k)
      | .cle => decide (k ≤ n)
      | .clt => decide (k < n)
      | .cgt => decide (n < k)
      | .cin => false
    | .vfloat x =>
      match op with
      | .ceq => f32eqb x (.finite (n : ℚ))
      | .cge => f32leb (.finite (n : ℚ)) x
      | .cle => f32leb x (.finite (n : ℚ))
      | .clt => f32ltb x (.finite (n : ℚ))
      | .cgt => f32ltb (.finite (n : ℚ)) x
      | .cin => false

def opName : CondOp → String
  | .ceq => "=="
  | .cge => ">="
  | .cle => "<="
  | .clt => "<"
  | .cgt => ">"
  | .cin => "in"

/-- The `FormatError` message of `_parseFile`, which names the offending
field and its comparison ("Field %s %s %s not met, got %s"; the rendering of
the expected and actual values is abstracted). -/
def fieldMsg (field : String) (op : CondOp) : String :=
  "Field " ++ field ++ " " ++ opName op ++ " not met"

mutual
/-- The record reader `_parseFile` (its loop over the described fields),
split mutually with `parseField` for a single field. -/
def parseDesc (d : Desc) (s : List Nat) (strict : Bool) :
    Except PError (List (String × RValue) × List Nat) :=
  match d with
  | .dnil => .ok ([], s)
  | .dcons field ty rest =>
    match parseField field ty s strict with
    | .error e => .error e
    | .ok (v, s1) =>
      match parseDesc rest s1 strict with
      | .error e => .error e
      | .ok (r, s2) => .ok ((field, v) :: r, s2)
termination_by structural d

/-- One field of `_parseFile`.  A nested field recurses with the
sub-descriptor — note the recursive call does NOT forward `strict` (the
source calls `_parseFile(f, test, leading)`, so nested records always use
the default `strict = True`).  A primitive field is read with `readPrim`
and then its validation rule, if any, is applied: a failing `require` rule
is always fatal; a failing `expect` rule is fatal only when `strict` is
true. -/
def parseField (field : String) (ty : FieldTy) (s : List Nat) (strict : Bool) :
    Except PError (RValue × List Nat) :=
  match ty with
  | .nest sub =>
    match parseDesc sub s true with
    | .error e => .error e
    | .ok (r, s1) => .ok (.rrec r, s1)
  | .prim t test =>
    match readPrim t s with
    | .error e => .error e
    | .ok (v, s1) =>
      let bad : Option PError :=
        match test with
        | none => none
        | some te =>
          let passes := evalTest v te.op te.val
          if passes = false ∧ te.scope = Scope.require then
            some (.formatError (fieldMsg field te.op))
          else if strict = true ∧ passes = false ∧ te.scope = Scope.expect then
            some (.formatError (fieldMsg field te.op))
          else none
      match bad with
      | some e => .error e
      | none => .ok (.rval v, s1)
termination_by structural ty
end

/-! ## The record descriptors of `parseRigolWFM` -/

/-- Descriptor `chan_header` (source lines 92-105). -/
def chanHeaderDesc : Desc := descOfList [
  ("scaleD", .prim .pi none),
  ("shiftD", .prim .ph none),
  ("padding1", .prim (.ps 2) (some ⟨.require, .ceq, .mbytes [0, 0]⟩)),
  ("probeAtt", .prim .pf (some ⟨.require, .cgt, .mint 0⟩)),
  ("invertD", .prim .pB (some ⟨.require, .cin, .mset [0, 1]⟩)),
  ("written", .prim .pB (some ⟨.require, .cin, .mset [0, 1]⟩)),
  ("invertM", .prim .pB (some ⟨.require, .cin, .mset [0, 1]⟩)),
  ("padding2", .prim (.ps 1) (some ⟨.require, .ceq, .mbytes [0]⟩)),
  ("scaleM", .prim .pi none),
  ("shiftM", .prim .ph none)]

/-- Descriptor `time_header` (source lines 107-113). -/
def timeHeaderDesc : Desc := descOfList [
  ("scaleD", .prim .pq none),
  ("delayD", .prim .pq none),
  ("smpRate", .prim .pf (some ⟨.require, .cge, .mint 0⟩)),
  ("scaleM", .prim .pq none),
  ("delayM", .prim .pq none)]

/-- Descriptor `trigger_header` (source lines 115-135). -/
def triggerHeaderDesc : Desc := descOfList [
  ("mode", .prim .pB none),
  ("source", .prim .pB none),
  ("coupling", .prim .pB none),
  ("sweep", .prim .pB none),
  ("padding1", .prim (.ps 1) (some ⟨.require, .ceq, .mbytes [0]⟩)),
  ("sens", .prim .pf none),
  ("holdoff", .prim .pf none),
  ("level", .prim .pf none),
  ("direct", .prim .pB none),
  ("pulseType", .prim .pB none),
  ("padding2", .prim (.ps 2) (some ⟨.require, .ceq, .mbytes [0, 0]⟩)),
  ("PulseWidth", .prim .pf none),
  ("slopeType", .prim .pB none),
  ("padding3", .prim (.ps 3) (some ⟨.require, .ceq, .mbytes [0, 0, 0]⟩)),
  ("lower", .prim .pf none),
  ("slopeWid", .prim .pf none),
  ("videoPol", .prim .pB none),
  ("videoSync", .prim .pB none),
  ("videoStd", .prim .pB none)]

/-- Descriptor `logic_analizer_channel` (source lines 137-145); `range(16)` is the set
`{0, …, 15}`. -/
def laChanDesc : Desc := descOfList [
  ("written", .prim .pB (some ⟨.require, .cin, .mset [0, 1]⟩)),
  ("activeCh", .prim .pB (some ⟨.require, .cin,
    .mset [0, 1, 2, 3, 4, 5, 6, 7, 8, 9, 10, 11, 12, 13, 14, 15]⟩)),
  ("enabledChannels", .prim .pH none),
  ("position", .prim (.ps 16) none),
  ("group8to15size", .prim .pB (some ⟨.require, .cin, .mset [7, 15]⟩)),
  ("group0to7size", .prim .pB (some ⟨.require, .cin, .mset [7, 15]⟩))]

/-- Descriptor `wfm_header` (source lines 147-186); `0xa5a5 = 42405`, `range(1,6)` is
`{1, …, 5}`. -/
def wfmHeaderDesc : Desc := descOfList [
  ("magic", .prim .pH (some ⟨.require, .ceq, .mint 42405⟩)),
  ("padding1", .prim (.ps 2) (some ⟨.require, .ceq, .mbytes [0, 0]⟩)),
  ("unused1", .prim (.ps 4) (some ⟨.expect, .ceq, .mbytes [0, 0, 0, 0]⟩)),
  ("unused2", .prim (.ps 4) (some ⟨.expect, .ceq, .mbytes [0, 0, 0, 0]⟩)),
  ("unused3", .prim (.ps 4) (some ⟨.expect, .ceq, .mbytes [0, 0, 0, 0]⟩)),
  ("adcMode", .prim .pB (some ⟨.expect, .cin, .mset [0, 1]⟩)),
  ("padding2", .prim (.ps 3) (some ⟨.require, .ceq, .mbytes [0, 0, 0]⟩)),
  ("rollStop", .prim .pI (some ⟨.expect, .ceq, .mint 0⟩)),
  ("unused4", .prim (.ps 4) (some ⟨.expect, .ceq, .mbytes [0, 0, 0, 0]⟩)),
  ("points1", .prim .pI none),
  ("activeCh", .prim .pB (some ⟨.require, .cin, .mset [1, 2, 3, 4, 5]⟩)),
  ("padding3", .prim (.ps 3) (some ⟨.require, .ceq, .mbytes [0, 0, 0]⟩)),
  ("channel1", .nest chanHeaderDesc),
  ("padding4", .prim (.ps 2) (some ⟨.require, .ceq, .mbytes [0, 0]⟩)),
  ("channel2", .nest chanHeaderDesc),
  ("timeDelayed", .prim .pB none),
  ("padding5", .prim (.ps 1) (some ⟨.require, .ceq, .mbytes [0]⟩)),
  ("time1", .nest timeHeaderDesc),
  ("channelLA", .nest laChanDesc),
  ("trigMode", .prim .pB none),
  ("trigHdr1", .nest triggerHeaderDesc),
  ("trigHdr2", .nest triggerHeaderDesc),
  ("fooG", .prim (.ps 9) (some ⟨.expect, .ceq, .mbytes [0, 0, 0, 0, 0, 0, 0, 0, 0]⟩)),
  ("points2", .prim .pi none),
  ("time2", .nest timeHeaderDesc)]

/-- Descriptor `wfm_header_append_v2` (source lines 194-196): the optional trailing
field of the newer format revision. -/
def wfmHeaderAppendV2 : Desc := descOfList [
  ("laSmpRate", .prim .pf (some ⟨.require, .cge, .mint 0⟩))]

/-! ## Typed views of the parsed header -/

/-- A parsed `chan_header` (padding fields, which the pipeline never reads,
are omitted). -/
structure ChanHeader where
  scaleD : Int
  shiftD : Int
  probeAtt : F32
  invertD : Int
  written : Int
  invertM : Int
  scaleM : Int
  shiftM : Int
deriving DecidableEq, Inhabited

/-- A parsed `time_header`. -/
structure TimeHeader where
  scaleD : Int
  delayD : Int
  smpRate : F32
  scaleM : Int
  delayM : Int
deriving DecidableEq, Inhabited

/-- A parsed `trigger_header` (padding fields omitted). -/
structure TriggerHeader where
  mode : Int
  source : Int
  coupling : Int
  sweep : Int
  sens : F32
  holdoff : F32
  level : F32
  direct : Int
  pulseType : Int
  pulseWidth : F32
  slopeType : Int
  lower : F32
  slopeWid : F32
  videoPol : Int
  videoSync : Int
  videoStd : Int
deriving DecidableEq, Inhabited

/-- A parsed `logic_analizer_channel`. -/
structure LaHeader where
  written : Int
  activeCh : Int
  enabledChannels : Int
  position : List Nat
  group8to15size : Int
  group0to7size : Int
deriving DecidableEq, Inhabited

/-- A parsed `wfm_header` (padding and unused fields omitted). -/
structure WfmHeader where
  adcMode : Int
  rollStop : Int
  points1 : Int
  activeCh : Int
  channel1 : ChanHeader
  channel2 : ChanHeader
  timeDelayed : Int
  time1 : TimeHeader
  channelLA : LaHeader
  trigMode : Int
  trigHdr1 : TriggerHeader
  trigHdr2 : TriggerHeader
  points2 : Int
  time2 : TimeHeader
deriving DecidableEq, Inhabited

/-! ## Pipeline stage 1: point counts and payload size (source lines 205-218) -/

/-- Point counts `fileHdr["points"]` after the inheritance fix-up: if channel 2 is marked
written and its point count is zero, it inherits channel 1's point count
(source lines 207-209); otherwise both counts are unchanged. -/
def computePoints (h : WfmHeader) : Int × Int :=
  if h.channel2.written ≠ 0 ∧ h.points2 = 0 then (h.points1, h.points1)
  else (h.points1, h.points2)

/-- Payload size `totalPointBytes` (source lines 211-218): one byte per point for each
written analog channel, plus two bytes per channel-1 point when the
logic-analyzer channel is written. -/
def totalPointBytes (h : WfmHeader) (pts : Int × Int) : Int :=
  (if h.channel1.written ≠ 0 then pts.1 else 0) +
  (if h.channel2.written ≠ 0 then pts.2 else 0) +
  (if h.channelLA.written ≠ 0 then pts.1 * 2 else 0)

/-! ## Pipeline stage 2: file-version detection (source lines 220-239) -/

/-- Look up a float field of a decoded record. -/
def rF32 (r : List (String × RValue)) (k : String) : Option F32 :=
  match r.find? (fun p => p.1 == k) with
  | some (_, .rval (.vfloat x)) => some x
  | _ => none

/-- File-version detection: `bytesMissing` is the number of bytes remaining
in the stream minus `totalPointBytes`.  Zero means the older format (no
trailing field); four means the newer format, whose single trailing
`laSmpRate` float is read via the record reader (`wfm_header_append_v2`,
with its `require ≥ 0` rule, at the caller's strictness); anything else
raises `FormatError`. -/
def detectVersion (h : WfmHeader) (rest : List Nat) (strict : Bool) :
    Except PError (Option F32 × List Nat) :=
  let bytesMissing : Int := (rest.length : Int) - totalPointBytes h (computePoints h)
  if bytesMissing = 0 then .ok (none, rest)
  else if bytesMissing = 4 then
    match parseDesc wfmHeaderAppendV2 rest strict with
    | .error e => .error e
    | .ok (r, rest') => .ok (rF32 r "laSmpRate", rest')
  else .error (.formatError "File length is not as expected")

/-! ## Pipeline stage 3: sample payload reading (source lines 244-263) -/

/-- Byte-array read (`array.array` type code B, `fromfile(f, n)`): reads `n` one-byte items; raises
`ValueError` for a negative count and `EOFError` when the stream is short. -/
def readBytesN (s : List Nat) (n : Int) : Except PError (List Nat × List Nat) :=
  if n < 0 then .error .valueError
  else if s.length < n.toNat then .error .eofError
  else .ok (s.take n.toNat, s.drop n.toNat)

/-- Pair up bytes into little-endian unsigned 16-bit values. -/
def chunkU16 : List Nat → List Nat
  | b0 :: b1 :: rest => (b0 + 256 * b1) :: chunkU16 rest
  | _ => []

/-- Word-array read (`array.array` type code H, `fromfile(f, n)`): reads `n` two-byte items as
little-endian unsigned 16-bit values (the source byte-swaps on big-endian
hosts so the result is always little-endian). -/
def readU16s (s : List Nat) (n : Int) : Except PError (List Nat × List Nat) :=
  if n < 0 then .error .valueError
  else if s.length < 2 * n.toNat then .error .eofError
  else .ok (chunkU16 (s.take (2 * n.toNat)), s.drop (2 * n.toNat))

/-- The sample-payload loop (source lines 244-263).  NOTE the source indexes
the point list with `dataIdx` — the running count of channels read so far —
rather than with `channel`; the model reproduces this (`ptsL.getD dataIdx`).
Returns the raw data of channel 1, channel 2 and the LA channel (each
`none` when the channel is not written) plus the remaining stream. -/
def readSamples (h : WfmHeader) (pts : Int × Int) (s : List Nat) :
    Except PError (Option (List Nat) × Option (List Nat) × Option (List Nat) × List Nat) :=
  let ptsL : List Int := [pts.1, pts.2]
  let step1 : Except PError (Option (List Nat) × Nat × List Nat) :=
    if h.channel1.written ≠ 0 then
      match readBytesN s (ptsL.getD 0 0) with
      | .error e => .error e
      | .ok (d, s') => .ok (some d, 1, s')
    else .ok (none, 0, s)
  match step1 with
  | .error e => .error e
  | .ok (d1, dataIdx, s1) =>
    let step2 : Except PError (Option (List Nat) × List Nat) :=
      if h.channel2.written ≠ 0 then
        match readBytesN s1 (ptsL.getD dataIdx 0) with
        | .error e => .error e
        | .ok (d, s') => .ok (some d, s')
      else .ok (none, s1)
    match step2 with
    | .error e => .error e
    | .ok (d2, s2) =>
      if h.channelLA.written ≠ 0 then
        match readU16s s2 pts.1 with
        | .error e => .error e
        | .ok (d, s3) => .ok (d1, d2, some d, s3)
      else .ok (d1, d2, none, s2)

/-! ## Pipeline stage 4: interpretation (source lines 266-425) -/

/-- A decoded trigger description (`trgDict`); the mode-specific keys are
`Option`s, present exactly for the matching mode. -/
structure TrigDict where
  mode : String
  source : String
  coupling : String
  sweep : String
  holdoff : F32
  sensitivity : F32
  level : F32
  edgeDirection : Option String
  pulseType : Option String
  pulseWidth : Option F32
  slopeType : Option String
  slopeLowerLevel : Option F32
  slopeWidth : Option F32
  slope : Option F32
  videoPol : Option String
  videoSync : Option String
  videoStd : Option String
deriving DecidableEq, Inhabited

/-- The slope expression of `parseTriggerHdr` (source line 300):
`(level - lowerLevel) / slopeWidth if slopeWidth else inf`.
The conditional uses Python truthiness of the width, so the division —
which for a zero divisor would raise `ZeroDivisionError`, modelled by
`fdivChecked` — only runs on a nonzero width. -/
def slopeCompute (level lower wid : F32) : Except PError F32 :=
  if f32Truthy wid then fdivChecked (fsub level lower) wid else .ok F32.inf

/-- The four unconditional enumerant lookups of `parseTriggerHdr`
(source lines 280-283): mode, source, coupling, sweep. -/
def trigEnums (t : TriggerHeader) : Except PError (String × String × String × String) :=
  match pyIndex ["Edge", "Pulse", "Slope", "Video", "Alternate"] t.mode with
  | none => .error .indexError
  | some mode =>
  match pyIndex ["CH1", "CH2", "EXT", "AC Line"] t.source with
  | none => .error .indexError
  | some source =>
  match pyIndex ["DC", "LF Reject", "HF Reject", "AC"] t.coupling with
  | none => .error .indexError
  | some coupling =>
  match pyIndex ["Auto", "Normal", "Single"] t.sweep with
  | none => .error .indexError
  | some sweep => .ok (mode, source, coupling, sweep)

/-- Edge-mode specific field (source lines 289-290). -/
def trigEdgePart (mode : String) (t : TriggerHeader) : Except PError (Option String) :=
  if mode = "Edge" then
    match pyIndex ["RISE", "FALL", "BOTH"] t.direct with
    | none => .error .indexError
    | some s => .ok (some s)
  else .ok none

/-- Pulse-mode specific fields (source lines 292-294). -/
def trigPulsePart (mode : String) (t : TriggerHeader) :
    Except PError (Option String × Option F32) :=
  if mode = "Pulse" then
    match pyIndex ["POS >", "POS <", "POS =", "NEG >", "NEG <", "NEG ="] t.pulseType with
    | none => .error .indexError
    | some s => .ok (some s, some t.pulseWidth)
  else .ok (none, none)

/-- Slope-mode specific fields including the guarded derived slope
(source lines 296-300). -/
def trigSlopePart (mode : String) (t : TriggerHeader) :
    Except PError (Option String × Option F32 × Option F32 × Option F32) :=
  if mode = "Slope" then
    match pyIndex ["RISE >", "RISE <", "RISE =", "FALL >", "FALL <", "FALL ="] t.slopeType with
    | none => .error .indexError
    | some sty =>
      match slopeCompute t.level t.lower t.slopeWid with
      | .error e => .error e
      | .ok sl => .ok (some sty, some t.lower, some t.slopeWid, some sl)
  else .ok (none, none, none, none)

/-- Video-mode specific fields (source lines 302-305). -/
def trigVideoPart (mode : String) (t : TriggerHeader) :
    Except PError (Option String × Option String × Option String) :=
  if mode = "Video" then
    match pyIndex ["POS", "NEG"] t.videoPol with
    | none => .error .indexError
    | some vp =>
    match pyIndex ["All Lines", "Line Num", "Odd Field", "Even Field"] t.videoSync with
    | none => .error .indexError
    | some vs =>
    match pyIndex ["NTSC", "PAL/SECAM"] t.videoStd with
    | none => .error .indexError
    | some vd => .ok (some vp, some vs, some vd)
  else .ok (none, none, none)

/-- Trigger decoding `parseTriggerHdr` (source lines 278-307): maps the raw enumerants
through fixed lookup tables (out-of-range raises `IndexError`), copies the
holdoff/sensitivity/level floats, and fills the mode-specific fields via
the part functions above. -/
def parseTriggerHdr (t : TriggerHeader) : Except PError TrigDict :=
  match trigEnums t with
  | .error e => .error e
  | .ok (mode, source, coupling, sweep) =>
  match trigEdgePart mode t with
  | .error e => .error e
  | .ok edgeDirection =>
  match trigPulsePart mode t with
  | .error e => .error e
  | .ok (pulseType, pulseWidth) =>
  match trigSlopePart mode t with
  | .error e => .error e
  | .ok (slopeType, slopeLowerLevel, slopeWidth, slope) =>
  match trigVideoPart mode t with
  | .error e => .error e
  | .ok (videoPol, videoSync, videoStd) =>
    .ok { mode := mode, source := source, coupling := coupling, sweep := sweep,
          holdoff := t.holdoff, sensitivity := t.sens, level := t.level,
          edgeDirection := edgeDirection, pulseType := pulseType,
          pulseWidth := pulseWidth, slopeType := slopeType,
          slopeLowerLevel := slopeLowerLevel, slopeWidth := slopeWidth,
          slope := slope, videoPol := videoPol, videoSync := videoSync,
          videoStd := videoStd }

/-- The keys a `channelDict` carries only when the channel is enabled
(source lines 320-364). -/
structure ChannelData where
  triggers : TrigDict
  probeAttenuation : F32
  scale : F32
  shift : F32
  inverted : Int
  raw : List Nat
  volts : List F32
  nsamples : Nat
  samplerate : F32
  timeScale : F32
  timeDelay : F32
  timeDiv : F32
  times : List F32
deriving DecidableEq, Inhabited

/-- A per-analog-channel entry of the scope result. -/
structure ChannelDict where
  enabled : Bool
  channelName : String
  data : Option ChannelData
deriving DecidableEq, Inhabited

/-- The keys the LA `channelDict` carries only when the LA channel is
enabled (source lines 374-419). -/
structure LaData where
  samplerate : F32
  raw : List Nat
  nsamples : Nat
  timeScale : F32
  timeDelay : F32
  timeDiv : F32
  times : List F32
  activeChannel : Int
  enabledChannelsMask : List Bool
  enabledChannelsMaskRaw : Int
  enabledChannels : List Nat
  byChannel : List (Nat × List Bool)
  waveSizeGroup1 : String
  waveSizeGroup2 : String
  position : List Nat
deriving DecidableEq, Inhabited

/-- The logic-analyzer entry of the scope result. -/
structure LaDict where
  enabled : Bool
  channelName : String
  data : Option LaData
deriving DecidableEq, Inhabited

/-- The scope result (`scopeData`).  `triggers` is the shared trigger
description, present only in non-alternate mode.  `laSmpRate` mirrors the
presence of the optional `"laSmpRate"` key in `fileHdr` (set only by the
v2 trailing field). -/
structure ScopeData where
  activeChannel : String
  alternateTrigger : Bool
  triggers : Option TrigDict
  channel1 : ChannelDict
  channel2 : ChannelDict
  channelLA : LaDict
  laSmpRate : Option F32
deriving DecidableEq, Inhabited

/-- The per-analog-channel block of the interpreter (source lines 314-367)
for channel index `c` (0-based).  `shared` is `scopeData["triggers"]`
(present iff not alternate mode); `data` is the channel's raw sample bytes
from `readSamples` (present iff the channel was written). -/
def buildChannel (h : WfmHeader) (c : Nat) (alt : Bool) (shared : Option TrigDict)
    (data : Option (List Nat)) : Except PError ChannelDict :=
  let ch := if c = 0 then h.channel1 else h.channel2
  let name := if c = 0 then "CH1" else "CH2"
  if ch.written ≠ 0 then
    let trigRes : Except PError TrigDict :=
      if alt then
        match parseTriggerHdr (if c = 0 then h.trigHdr1 else h.trigHdr2) with
        | .error e => .error e
        | .ok t => .ok { t with source := name }
      else
        match shared with
        | some t => .ok t
        | none => .error .keyError
    match trigRes with
    | .error e => .error e
    | .ok trig =>
      let scale := fmul (fmul (F32.finite (ch.scaleM : ℚ)) (F32.finite (1 / 1000000 : ℚ))) ch.probeAtt
      let shift := fmul (F32.finite ((ch.shiftM : ℚ) / 25)) scale
      let sign : Int := if ch.invertM ≠ 0 then -1 else 1
      match data with
      | none => .error .keyError
      | some rawAll =>
        let raw := if h.rollStop = 0 then rawAll else rawAll.take h.rollStop.toNat
        let volts := raw.map (fun (x : ℕ) =>
          fmul (fsub (fmul (F32.finite ((125 - (x : ℚ)) / 25)) scale) shift)
            (F32.finite (sign : ℚ)))
        let samples := raw.length
        let timebase := if ¬ alt then h.time1 else (if c = 0 then h.time1 else h.time2)
        match fdivChecked (F32.finite 1) timebase.smpRate with
        | .error e => .error e
        | .ok timeScale =>
          let timeDelay := F32.finite ((timebase.delayM : ℚ) / 10 ^ 12)
          let timeDiv := F32.finite ((timebase.scaleM : ℚ) / 10 ^ 12)
          let times := (List.range samples).map (fun (tt : ℕ) =>
            fadd (fmul (F32.finite ((tt : ℚ) - (samples : ℚ) / 2)) timeScale) timeDelay)
          .ok { enabled := true, channelName := name,
                data := some { triggers := trig, probeAttenuation := ch.probeAtt,
                               scale := scale, shift := shift, inverted := ch.invertM,
                               raw := raw, volts := volts, nsamples := samples,
                               samplerate := timebase.smpRate, timeScale := timeScale,
                               timeDelay := timeDelay, timeDiv := timeDiv, times := times } }
  else .ok { enabled := false, channelName := name, data := none }

/-- The logic-analyzer block of the interpreter (source lines 369-422).
`laSmp` is the optional trailing `laSmpRate`; `data` is the raw 16-bit
sample sequence (present iff the LA channel was written). -/
def buildLA (h : WfmHeader) (laSmp : Option F32) (data : Option (List Nat)) :
    Except PError LaDict :=
  if h.channelLA.written ≠ 0 then
    let timebase := h.time1
    let samplerate := match laSmp with
      | some v => v
      | none => timebase.smpRate
    match data with
    | none => .error .keyError
    | some rawAll =>
      let raw := if h.rollStop = 0 then rawAll else rawAll.take h.rollStop.toNat
      let samples := raw.length
      match fdivChecked (F32.finite 1) samplerate with
      | .error e => .error e
      | .ok timeScale =>
        let timeDelay := F32.finite ((timebase.delayM : ℚ) / 10 ^ 12)
        let timeDiv := F32.finite ((timebase.scaleM : ℚ) / 10 ^ 12)
        let times := (List.range samples).map (fun (tt : ℕ) =>
          fadd (fmul (F32.finite ((tt : ℚ) - (samples : ℚ) / 2)) timeScale) timeDelay)
        let mask := (List.range 16).map (fun p => h.channelLA.enabledChannels.toNat.testBit p)
        match pyIndex mask h.channelLA.activeCh with
        | none => .error .indexError
        | some bit =>
          if bit then
            let enabledList := (List.range 16).filter (fun i => mask.getD i false)
            let byChannel := enabledList.map (fun c =>
              (c, raw.map (fun smp => smp.testBit c)))
            let wave1 : Except PError String :=
              if h.channelLA.group0to7size = 7 then .ok "big"
              else if h.channelLA.group0to7size = 15 then .ok "small"
              else .error .keyError
            match wave1 with
            | .error e => .error e
            | .ok waveSizeGroup1 =>
              let wave2 : Except PError String :=
                if h.channelLA.group8to15size = 7 then .ok "big"
                else if h.channelLA.group8to15size = 15 then .ok "small"
                else .error .keyError
              match wave2 with
              | .error e => .error e
              | .ok waveSizeGroup2 =>
                .ok { enabled := true, channelName := "CHLA",
                      data := some { samplerate := samplerate, raw := raw,
                                     nsamples := samples, timeScale := timeScale,
                                     timeDelay := timeDelay, timeDiv := timeDiv,
                                     times := times,
                                     activeChannel := h.channelLA.activeCh,
                                     enabledChannelsMask := mask,
                                     enabledChannelsMaskRaw := h.channelLA.enabledChannels,
                                     enabledChannels := enabledList,
                                     byChannel := byChannel,
                                     waveSizeGroup1 := waveSizeGroup1,
                                     waveSizeGroup2 := waveSizeGroup2,
                                     position := h.channelLA.position } }
          else .error .assertionError
  else .ok { enabled := false, channelName := "CHLA", data := none }

/-- The body of the interpretation stage after the active-channel lookup
and the trigger-mode consistency check (source lines 275-422): decode the
shared trigger description when not in alternate mode, then build both
analog channel entries and the LA entry. -/
def interpretBody (h : WfmHeader) (laSmp : Option F32) (d1 d2 laD : Option (List Nat))
    (activeChannel : String) : Except PError ScopeData :=
  let alternateTrigger : Bool := h.trigMode == 4
  let sharedRes : Except PError (Option TrigDict) :=
    if !alternateTrigger then
      match parseTriggerHdr h.trigHdr1 with
      | .error e => .error e
      | .ok tr => .ok (some tr)
    else .ok none
  match sharedRes with
  | .error e => .error e
  | .ok shared =>
    match buildChannel h 0 alternateTrigger shared d1 with
    | .error e => .error e
    | .ok ch1 =>
      match buildChannel h 1 alternateTrigger shared d2 with
      | .error e => .error e
      | .ok ch2 =>
        match buildLA h laSmp laD with
        | .error e => .error e
        | .ok la =>
          .ok { activeChannel := activeChannel,
                alternateTrigger := alternateTrigger,
                triggers := shared, channel1 := ch1, channel2 := ch2,
                channelLA := la, laSmpRate := laSmp }

/-- The interpretation stage (source lines 266-425): resolve the active
channel name, check the trigger-mode consistency `assert` (a mismatch in
non-alternate mode raises `AssertionError`), then run `interpretBody`. -/
def interpret (h : WfmHeader) (laSmp : Option F32) (d1 d2 laD : Option (List Nat)) :
    Except PError ScopeData :=
  match pyIndex ["CH1", "CH2", "REF", "MATH", "LA"] (h.activeCh - 1) with
  | none => .error .indexError
  | some activeChannel =>
    if (h.trigMode == 4) || h.trigMode == h.trigHdr1.mode then
      interpretBody h laSmp d1 d2 laD activeChannel
    else .error .assertionError

/-- Everything after version detection: read the sample payload, then
interpret. -/
def afterVersion (h : WfmHeader) (laSmp : Option F32) (s : List Nat) :
    Except PError ScopeData :=
  match readSamples h (computePoints h) s with
  | .error e => .error e
  | .ok (d1, d2, laD, _) => interpret h laSmp d1 d2 laD

/-- Everything after the header parse (source lines 200-425): version
detection followed by payload reading and interpretation. -/
def decodeAfterHeader (h : WfmHeader) (rest : List Nat) (strict : Bool) :
    Except PError ScopeData :=
  match detectVersion h rest strict with
  | .error e => .error e
  | .ok (laSmp, rest') => afterVersion h laSmp rest'

/-! ## End-to-end decoder -/

/-- Look up an integer field of a decoded record. -/
def rInt (r : List (String × RValue)) (k : String) : Option Int :=
  match r.find? (fun p => p.1 == k) with
  | some (_, .rval (.vint n)) => some n
  | _ => none

/-- Look up a byte-block field of a decoded record. -/
def rBytes (r : List (String × RValue)) (k : String) : Option (List Nat) :=
  match r.find? (fun p => p.1 == k) with
  | some (_, .rval (.vbytes bs)) => some bs
  | _ => none

/-- Look up a nested record field of a decoded record. -/
def rRec (r : List (String × RValue)) (k : String) : Option (List (String × RValue)) :=
  match r.find? (fun p => p.1 == k) with
  | some (_, .rrec f) => some f
  | _ => none


/-- Integer field lookup with default (records produced by the descriptor
parse always carry every described key, so the default is unreachable
there). -/
def rIntD (r : List (String × RValue)) (k : String) : Int := (rInt r k).getD 0

def rF32D (r : List (String × RValue)) (k : String) : F32 := (rF32 r k).getD (F32.finite 0)

def rBytesD (r : List (String × RValue)) (k : String) : List Nat := (rBytes r k).getD []

def rRecD (r : List (String × RValue)) (k : String) : List (String × RValue) :=
  (rRec r k).getD []

/-- Typed view of a decoded `chan_header` record. -/
def extractChan (r : List (String × RValue)) : ChanHeader where
  scaleD := rIntD r "scaleD"
  shiftD := rIntD r "shiftD"
  probeAtt := rF32D r "probeAtt"
  invertD := rIntD r "invertD"
  written := rIntD r "written"
  invertM := rIntD r "invertM"
  scaleM := rIntD r "scaleM"
  shiftM := rIntD r "shiftM"

/-- Typed view of a decoded `time_header` record. -/
def extractTime (r : List (String × RValue)) : TimeHeader where
  scaleD := rIntD r "scaleD"
  delayD := rIntD r "delayD"
  smpRate := rF32D r "smpRate"
  scaleM := rIntD r "scaleM"
  delayM := rIntD r "delayM"

/-- Typed view of a decoded `trigger_header` record. -/
def extractTrig (r : List (String × RValue)) : TriggerHeader where
  mode := rIntD r "mode"
  source := rIntD r "source"
  coupling := rIntD r "coupling"
  sweep := rIntD r "sweep"
  sens := rF32D r "sens"
  holdoff := rF32D r "holdoff"
  level := rF32D r "level"
  direct := rIntD r "direct"
  pulseType := rIntD r "pulseType"
  pulseWidth := rF32D r "PulseWidth"
  slopeType := rIntD r "slopeType"
  lower := rF32D r "lower"
  slopeWid := rF32D r "slopeWid"
  videoPol := rIntD r "videoPol"
  videoSync := rIntD r "videoSync"
  videoStd := rIntD r "videoStd"

/-- Typed view of a decoded `logic_analizer_channel` record. -/
def extractLa (r : List (String × RValue)) : LaHeader where
  written := rIntD r "written"
  activeCh := rIntD r "activeCh"
  enabledChannels := rIntD r "enabledChannels"
  position := rBytesD r "position"
  group8to15size := rIntD r "group8to15size"
  group0to7size := rIntD r "group0to7size"

/-- Typed view of a decoded `wfm_header` record. -/
def extractHeader (r : List (String × RValue)) : WfmHeader where
  adcMode := rIntD r "adcMode"
  rollStop := rIntD r "rollStop"
  points1 := rIntD r "points1"
  activeCh := rIntD r "activeCh"
  channel1 := extractChan (rRecD r "channel1")
  channel2 := extractChan (rRecD r "channel2")
  timeDelayed := rIntD r "timeDelayed"
  time1 := extractTime (rRecD r "time1")
  channelLA := extractLa (rRecD r "channelLA")
  trigMode := rIntD r "trigMode"
  trigHdr1 := extractTrig (rRecD r "trigHdr1")
  trigHdr2 := extractTrig (rRecD r "trigHdr2")
  points2 := rIntD r "points2"
  time2 := extractTime (rRecD r "time2")

/-- The decoder `parseRigolWFM` end to end: parse the file header with the record
reader (at the caller's strictness), take the typed view, then run the
decoding pipeline on the remaining stream. -/
def parseRigolWFM (bytes : List Nat) (strict : Bool) : Except PError ScopeData :=
  match parseDesc wfmHeaderDesc bytes strict with
  | .error e => .error e
  | .ok (r, rest) => decodeAfterHeader (extractHeader r) rest strict

/-! ## Fixtures for concrete evaluations -/

/-- A channel header that is not written (probe attenuation 1, measurement
scale 1000000 µV/div, no shift, not inverted). -/
def chanOff : ChanHeader :=
  { scaleD := 0, shiftD := 0, probeAtt := F32.finite 1, invertD := 0,
    written := 0, invertM := 0, scaleM := 1000000, shiftM := 0 }

/-- The same channel header, marked written. -/
def chanOn : ChanHeader := { chanOff with written := 1 }

/-- A timebase with sample rate 1. -/
def timeOne : TimeHeader :=
  { scaleD := 0, delayD := 0, smpRate := F32.finite 1, scaleM := 0, delayM := 0 }

/-- An unwritten logic-analyzer header. -/
def laOff : LaHeader :=
  { written := 0, activeCh := 0, enabledChannels := 1,
    position := List.replicate 16 0, group8to15size := 7, group0to7size := 7 }

/-- An all-zero (Edge-mode) trigger header. -/
def trigEdge : TriggerHeader :=
  { mode := 0, source := 0, coupling := 0, sweep := 0, sens := F32.finite 0,
    holdoff := F32.finite 0, level := F32.finite 0, direct := 0, pulseType := 0,
    pulseWidth := F32.finite 0, slopeType := 0, lower := F32.finite 0,
    slopeWid := F32.finite 0, videoPol := 0, videoSync := 0, videoStd := 0 }

/-- A baseline parsed header: channel 1 written with one point, channel 2
and LA unwritten, Edge trigger mode 0 on both headers. -/
def baseHdr : WfmHeader :=
  { adcMode := 0, rollStop := 0, points1 := 1, activeCh := 1,
    channel1 := chanOn, channel2 := chanOff, timeDelayed := 0,
    time1 := timeOne, channelLA := laOff, trigMode := 0,
    trigHdr1 := trigEdge, trigHdr2 := trigEdge, points2 := 0, time2 := timeOne }

/-! ## C9: point-count inheritance -/

/-- C9: after the header is read, if channel 2's written flag is set and its
decoded point count is zero, channel 2's point count is replaced by channel
1's before any payload-size computation; in all other cases both point
counts are unchanged. -/
theorem points2_inheritance (h : WfmHeader) :
    (h.channel2.written ≠ 0 → h.points2 = 0 → computePoints h = (h.points1, h.points1)) ∧
    (h.channel2.written = 0 ∨ h.points2 ≠ 0 → computePoints h = (h.points1, h.points2)) := by
  refine ⟨fun hw hp => ?_, fun hcase => ?_⟩
  · simp [computePoints, hw, hp]
  · rcases hcase with hw | hp
    · simp [computePoints, hw]
    · simp [computePoints, hp]

/-- Concrete instance of `points2_inheritance`: with channel 2 written and
`points2 = 0`, the point pair becomes `(points1, points1)`. -/
theorem points2_inheritance_witness :
    computePoints { baseHdr with channel2 := chanOn, points1 := 5, points2 := 0 } = (5, 5) :=
  (points2_inheritance _).1 (by decide) (by decide)

/-! ## C7: the guarded slope computation -/

/-- In a successful Slope-mode part, the slope component is the value of
`slopeCompute`. -/
theorem trigSlopePart_slope (t : TriggerHeader)
    (x : Option String × Option F32 × Option F32 × Option F32)
    (h : trigSlopePart "Slope" t = .ok x) :
    x.2.2.2 = (slopeCompute t.level t.lower t.slopeWid).toOption := by
  rw [trigSlopePart, if_pos rfl] at h
  split at h
  · exact Except.noConfusion h
  split at h
  · exact Except.noConfusion h
  cases h
  simp_all [Except.toOption]

/-- C7: in a Slope-mode trigger header the derived slope equals
`(level - lowerLevel) / slopeWidth` when the width is nonzero and `+inf`
when the width is zero; in both cases `slopeCompute` returns `.ok` — the
`ZeroDivisionError` branch of the division is never taken. -/
theorem slope_zero_guard (t : TriggerHeader) :
    (t.slopeWid = F32.finite 0 → slopeCompute t.level t.lower t.slopeWid = .ok F32.inf) ∧
    (t.slopeWid ≠ F32.finite 0 →
      slopeCompute t.level t.lower t.slopeWid = .ok (fdiv (fsub t.level t.lower) t.slopeWid)) ∧
    (∀ d, parseTriggerHdr t = .ok d → d.mode = "Slope" →
      d.slope = (slopeCompute t.level t.lower t.slopeWid).toOption) := by
  refine ⟨fun hw => ?_, fun hw => ?_, fun d hd hmode => ?_⟩
  · simp [slopeCompute, hw, f32Truthy]
  · have ht : f32Truthy t.slopeWid = true := by
      cases hwid : t.slopeWid with
      | finite q =>
        simp only [f32Truthy, bne_iff_ne, ne_eq, decide_eq_true_eq]
        intro hq
        exact hw (by rw [hwid, hq])
      | inf => rfl
      | neginf => rfl
      | nan => rfl
    simp [slopeCompute, ht, fdivChecked, hw]
  · simp only [parseTriggerHdr] at hd
    split at hd
    · exact Except.noConfusion hd
    rename_i mode source coupling sweep h1
    split at hd
    · exact Except.noConfusion hd
    rename_i edge h2
    split at hd
    · exact Except.noConfusion hd
    rename_i pt pw h3
    split at hd
    · exact Except.noConfusion hd
    rename_i st sll sw sl h4
    split at hd
    · exact Except.noConfusion hd
    rename_i vp vs vd h5
    simp only [Except.ok.injEq] at hd
    subst hd
    simp only at hmode
    subst hmode
    simpa using trigSlopePart_slope t (st, sll, sw, sl) h4

/-- A Slope-mode trigger header with zero width. -/
def trigSlope0 : TriggerHeader := { trigEdge with mode := 2, slopeWid := F32.finite 0 }

/-- A Slope-mode trigger header with level 5, lower level 1, width 2. -/
def trigSlopeW : TriggerHeader :=
  { trigEdge with
    mode := 2, level := F32.finite 5, lower := F32.finite 1,
    slopeWid := F32.finite 2 }

/-- Concrete instances of `slope_zero_guard`: zero width gives `+inf`, and
a nonzero width divides. -/
theorem slope_zero_guard_witness :
    slopeCompute trigSlope0.level trigSlope0.lower trigSlope0.slopeWid = .ok F32.inf ∧
    slopeCompute trigSlopeW.level trigSlopeW.lower trigSlopeW.slopeWid =
      .ok (fdiv (fsub trigSlopeW.level trigSlopeW.lower) trigSlopeW.slopeWid) :=
  ⟨(slope_zero_guard trigSlope0).1 rfl, (slope_zero_guard trigSlopeW).2.1 (by decide)⟩

/-! ## C3: short reads -/

/-- C3 counterexample: a short read aborts the parse with `struct.error`
(from `struct.unpack` receiving too few bytes), which is NOT the decoder's
`FormatError`. -/
theorem short_read_not_formatError :
    parseDesc (descOfList [("x", FieldTy.prim PrimType.pB none)]) [] true =
      .error PError.structError ∧
    PError.isFormatError PError.structError = false :=
  ⟨rfl, rfl⟩

/-- C3 (amended): when the stream holds fewer bytes than a field's size,
the field read and therefore the whole record parse abort with
`struct.error` (not `FormatError`), with no record returned. -/
theorem short_read_struct_error (field : String) (t : PrimType) (test : Option Test)
    (rest : Desc) (s : List Nat) (strict : Bool) (hs : s.length < psize t) :
    parseField field (FieldTy.prim t test) s strict = .error PError.structError ∧
    parseDesc (Desc.dcons field (FieldTy.prim t test) rest) s strict =
      .error PError.structError := by
  have h1 : readPrim t s = .error PError.structError := by simp [readPrim, hs]
  refine ⟨?_, ?_⟩
  · simp [parseField, h1]
  · simp [parseDesc, parseField, h1]

/-- Concrete instance of `short_read_struct_error`: an empty stream is too
short for a one-byte field. -/
theorem short_read_struct_error_witness :
    ([] : List Nat).length < psize PrimType.pB ∧
    parseDesc (Desc.dcons "x" (FieldTy.prim PrimType.pB none) Desc.dnil) [] true =
      .error PError.structError :=
  ⟨by decide,
   (short_read_struct_error "x" PrimType.pB none Desc.dnil [] true (by decide)).2⟩

/-! ## C5: `expect` vs `require` rules and the strict flag -/

/-- C5: a field whose decoded value fails its validation rule behaves as
follows.  A failing `require` rule is fatal with a `FormatError` naming the
field, regardless of `strict`.  A failing `expect` rule is the same
`FormatError` when `strict` is true; with `strict` false the field parses
successfully, the deviating value is kept, and the result is identical to
parsing the field with no rule at all (so nothing is observable at the API
level) — likewise for a whole record starting with that field. -/
theorem expect_strict_gate (field : String) (t : PrimType) (op : CondOp) (m : MatchVal)
    (s : List Nat) (v : Value) (s1 : List Nat) :
    (∀ strict, readPrim t s = .ok (v, s1) → evalTest v op m = false →
      parseField field (FieldTy.prim t (some ⟨Scope.require, op, m⟩)) s strict =
        .error (.formatError (fieldMsg field op))) ∧
    (readPrim t s = .ok (v, s1) → evalTest v op m = false →
      parseField field (FieldTy.prim t (some ⟨Scope.expect, op, m⟩)) s true =
        .error (.formatError (fieldMsg field op))) ∧
    (readPrim t s = .ok (v, s1) →
      parseField field (FieldTy.prim t (some ⟨Scope.expect, op, m⟩)) s false =
        .ok (.rval v, s1)) ∧
    (parseField field (FieldTy.prim t (some ⟨Scope.expect, op, m⟩)) s false =
      parseField field (FieldTy.prim t none) s false) ∧
    (∀ rest, parseDesc (Desc.dcons field (FieldTy.prim t (some ⟨Scope.expect, op, m⟩)) rest) s false =
      parseDesc (Desc.dcons field (FieldTy.prim t none) rest) s false) := by
  refine ⟨fun strict hr hfail => ?_, fun hr hfail => ?_, fun hr => ?_, ?_, fun rest => ?_⟩
  · simp [parseField, hr, hfail]
  · simp [parseField, hr, hfail]
  · simp [parseField, hr]
  · cases hr : readPrim t s with
    | error e => simp [parseField, hr]
    | ok vs => simp [parseField, hr]
  · simp only [parseDesc]
    cases hr : readPrim t s with
    | error e => simp [parseField, hr]
    | ok vs => simp [parseField, hr]

/-- Concrete instance of `expect_strict_gate` on the `rollStop` rule shape
(`expect == 0`): the value 1 deviates; strict parsing fails with the
field-naming `FormatError`, lenient parsing keeps the value 1. -/
theorem expect_strict_gate_witness :
    readPrim PrimType.pB [1] = .ok (Value.vint 1, []) ∧
    evalTest (Value.vint 1) CondOp.ceq (MatchVal.mint 0) = false ∧
    parseField "rollStop" (FieldTy.prim PrimType.pB (some ⟨Scope.expect, CondOp.ceq, MatchVal.mint 0⟩)) [1] true =
      .error (.formatError (fieldMsg "rollStop" CondOp.ceq)) ∧
    parseField "rollStop" (FieldTy.prim PrimType.pB (some ⟨Scope.expect, CondOp.ceq, MatchVal.mint 0⟩)) [1] false =
      .ok (.rval (Value.vint 1), []) :=
  ⟨rfl, rfl,
   (expect_strict_gate "rollStop" PrimType.pB CondOp.ceq (MatchVal.mint 0) [1]
      (Value.vint 1) []).2.1 rfl rfl,
   (expect_strict_gate "rollStop" PrimType.pB CondOp.ceq (MatchVal.mint 0) [1]
      (Value.vint 1) []).2.2.1 rfl⟩

/-! ## C10: nested records and the strict flag -/

mutual
/-- Does every validation rule in a descriptor use the `require` scope? -/
def onlyRequireD : Desc → Bool
  | .dnil => true
  | .dcons _ ty rest => onlyRequireF ty && onlyRequireD rest
termination_by structural d => d

/-- Does every validation rule in a field (recursively) use `require`? -/
def onlyRequireF : FieldTy → Bool
  | .prim _ none => true
  | .prim _ (some te) => te.scope == Scope.require
  | .nest sub => onlyRequireD sub
termination_by structural ty => ty
end

/-- Parsing a field whose rules are all `require`-scoped does not depend on
the strict flag (a nested field never consults it at all). -/
theorem parseField_strict_irrel (field : String) (ty : FieldTy)
    (hty : onlyRequireF ty = true) (s : List Nat) (b1 b2 : Bool) :
    parseField field ty s b1 = parseField field ty s b2 :=
  match ty, hty with
  | .nest _, _ => by simp only [parseField]
  | .prim _ none, _ => by simp only [parseField]
  | .prim t (some te), hty => by
    have hsc : te.scope = Scope.require := by
      simpa [onlyRequireF] using hty
    simp only [parseField]
    cases hr : readPrim t s with
    | error e => rfl
    | ok vs =>
      obtain ⟨v, s1⟩ := vs
      cases hp : evalTest v te.op te.val with
      | false => simp [hsc, hp]
      | true => simp [hsc, hp]

/-- Parsing a descriptor whose rules are all `require`-scoped does not
depend on the strict flag. -/
theorem parseDesc_strict_irrel (d : Desc) (hd : onlyRequireD d = true) (s : List Nat)
    (b1 b2 : Bool) : parseDesc d s b1 = parseDesc d s b2 :=
  match d, hd with
  | .dnil, _ => rfl
  | .dcons field ty rest, hd => by
    have hty : onlyRequireF ty = true := by
      have h := hd
      simp only [onlyRequireD, Bool.and_eq_true] at h
      exact h.1
    have hrest : onlyRequireD rest = true := by
      have h := hd
      simp only [onlyRequireD, Bool.and_eq_true] at h
      exact h.2
    simp only [parseDesc]
    rw [parseField_strict_irrel field ty hty s b1 b2]
    split
    · rfl
    · rename_i v s1 hsplit
      rw [parseDesc_strict_irrel rest hrest s1 b1 b2]

/-- C10: the nested-record parse of a field never forwards the strict flag
(it always parses the sub-record with `strict = true`); every validation
rule of the four nested descriptors (channel, timebase, trigger,
logic-analyzer) is `require`-scoped; and consequently, on every input
stream each of those nested records decodes identically under
`strict = true` and `strict = false`. -/
theorem nested_records_strict_independent :
    (∀ field sub s strict, parseField field (FieldTy.nest sub) s strict =
      parseField field (FieldTy.nest sub) s true) ∧
    (onlyRequireD chanHeaderDesc = true ∧ onlyRequireD timeHeaderDesc = true ∧
      onlyRequireD triggerHeaderDesc = true ∧ onlyRequireD laChanDesc = true) ∧
    (∀ s b1 b2,
      parseDesc chanHeaderDesc s b1 = parseDesc chanHeaderDesc s b2 ∧
      parseDesc timeHeaderDesc s b1 = parseDesc timeHeaderDesc s b2 ∧
      parseDesc triggerHeaderDesc s b1 = parseDesc triggerHeaderDesc s b2 ∧
      parseDesc laChanDesc s b1 = parseDesc laChanDesc s b2) := by
  refine ⟨fun field sub s strict => rfl, ⟨rfl, rfl, rfl, rfl⟩, fun s b1 b2 => ?_⟩
  exact ⟨parseDesc_strict_irrel chanHeaderDesc rfl s b1 b2,
         parseDesc_strict_irrel timeHeaderDesc rfl s b1 b2,
         parseDesc_strict_irrel triggerHeaderDesc rfl s b1 b2,
         parseDesc_strict_irrel laChanDesc rfl s b1 b2⟩

/-! ## C1: file-version detection from `bytesMissing` -/

/-- A successful interpretation body carries exactly the `laSmpRate` it was
given (mirroring `fileHdr.update`). -/
theorem interpretBody_laSmp (h : WfmHeader) (laSmp : Option F32)
    (d1 d2 laD : Option (List Nat)) (ac : String) (sd : ScopeData)
    (hok : interpretBody h laSmp d1 d2 laD ac = .ok sd) : sd.laSmpRate = laSmp := by
  simp only [interpretBody] at hok
  split at hok
  · exact Except.noConfusion hok
  split at hok
  · exact Except.noConfusion hok
  split at hok
  · exact Except.noConfusion hok
  split at hok
  · exact Except.noConfusion hok
  simp only [Except.ok.injEq] at hok
  subst hok
  rfl

/-- A successful interpretation carries exactly the `laSmpRate` it was
given. -/
theorem interpret_laSmp (h : WfmHeader) (laSmp : Option F32)
    (d1 d2 laD : Option (List Nat)) (sd : ScopeData)
    (hok : interpret h laSmp d1 d2 laD = .ok sd) : sd.laSmpRate = laSmp := by
  simp only [interpret] at hok
  split at hok
  · exact Except.noConfusion hok
  split at hok
  · exact interpretBody_laSmp _ _ _ _ _ _ _ hok
  · exact Except.noConfusion hok

/-- A successful decode after version detection carries exactly the
`laSmpRate` the version detection produced. -/
theorem afterVersion_laSmp (h : WfmHeader) (laSmp : Option F32) (s : List Nat)
    (sd : ScopeData) (hok : afterVersion h laSmp s = .ok sd) : sd.laSmpRate = laSmp := by
  simp only [afterVersion] at hok
  split at hok
  · exact Except.noConfusion hok
  exact interpret_laSmp _ _ _ _ _ _ hok

/-- Evaluation of the `wfm_header_append_v2` parse when at least four bytes
remain: one 4-byte float `laSmpRate` is read and its `require ≥ 0` rule
applied. -/
theorem appendV2_eval (rest : List Nat) (strict : Bool) (h4 : 4 ≤ rest.length) :
    parseDesc wfmHeaderAppendV2 rest strict =
      if f32leb (F32.finite 0) (decodeF32 (rest.take 4)) then
        .ok ([("laSmpRate", RValue.rval (Value.vfloat (decodeF32 (rest.take 4))))], rest.drop 4)
      else .error (.formatError (fieldMsg "laSmpRate" CondOp.cge)) := by
  have hr : readPrim PrimType.pf rest =
      .ok (Value.vfloat (decodeF32 (rest.take 4)), rest.drop 4) := by
    simp [readPrim, psize, decodePrim, Nat.not_lt.mpr h4]
  cases hf : f32leb (F32.finite 0) (decodeF32 (rest.take 4)) with
  | false =>
    simp [wfmHeaderAppendV2, descOfList, parseDesc, parseField, hr, evalTest, hf]
  | true =>
    simp [wfmHeaderAppendV2, descOfList, parseDesc, parseField, hr, evalTest, hf]

/-- C1: after the header, with `bytesMissing` the remaining stream length
minus the computed sample-payload size: when it is 0, decoding proceeds with
no trailing field read and any successful result has no `laSmpRate`; when it
is 4, the decode continues with the result of reading exactly one 4-byte
float `laSmpRate` through the record reader (a decoded value failing the
`require ≥ 0` rule is a `FormatError`, and any successful result carries the
decoded float); for any other value the decode fails with `FormatError`,
returning no result. -/
theorem version_detection (h : WfmHeader) (rest : List Nat) (strict : Bool) :
    ((rest.length : Int) - totalPointBytes h (computePoints h) = 0 →
      decodeAfterHeader h rest strict = afterVersion h none rest ∧
      (∀ sd, decodeAfterHeader h rest strict = .ok sd → sd.laSmpRate = none)) ∧
    ((rest.length : Int) - totalPointBytes h (computePoints h) = 4 →
      decodeAfterHeader h rest strict =
        (match parseDesc wfmHeaderAppendV2 rest strict with
         | .error e => .error e
         | .ok (r, rest') => afterVersion h (rF32 r "laSmpRate") rest') ∧
      (∀ sd, decodeAfterHeader h rest strict = .ok sd →
        sd.laSmpRate = some (decodeF32 (rest.take 4)) ∧
        f32leb (F32.finite 0) (decodeF32 (rest.take 4)) = true) ∧
      (f32leb (F32.finite 0) (decodeF32 (rest.take 4)) = false → 4 ≤ rest.length →
        decodeAfterHeader h rest strict =
          .error (.formatError (fieldMsg "laSmpRate" CondOp.cge)))) ∧
    ((rest.length : Int) - totalPointBytes h (computePoints h) ≠ 0 →
     (rest.length : Int) - totalPointBytes h (computePoints h) ≠ 4 →
      decodeAfterHeader h rest strict = .error (.formatError "File length is not as expected")) := by
  refine ⟨fun hbm => ?_, fun hbm => ?_, fun hbm0 hbm4 => ?_⟩
  · have hdec : decodeAfterHeader h rest strict = afterVersion h none rest := by
      simp [decodeAfterHeader, detectVersion, hbm]
    refine ⟨hdec, fun sd hok => ?_⟩
    rw [hdec] at hok
    exact afterVersion_laSmp h none rest sd hok
  · have hdec : decodeAfterHeader h rest strict =
        (match parseDesc wfmHeaderAppendV2 rest strict with
         | .error e => .error e
         | .ok (r, rest') => afterVersion h (rF32 r "laSmpRate") rest') := by
      simp only [decodeAfterHeader, detectVersion, hbm]
      norm_num
      cases hp : parseDesc wfmHeaderAppendV2 rest strict with
      | error e => rfl
      | ok p =>
        obtain ⟨r, rest'⟩ := p
        rfl
    refine ⟨hdec, fun sd hok => ?_, fun hneg h4 => ?_⟩
    · rw [hdec] at hok
      by_cases h4 : 4 ≤ rest.length
      · rw [appendV2_eval rest strict h4] at hok
        cases hf : f32leb (F32.finite 0) (decodeF32 (rest.take 4)) with
        | false => rw [hf] at hok; simp at hok
        | true =>
          rw [hf] at hok
          simp only [if_pos] at hok
          have hlook : rF32 [("laSmpRate", RValue.rval (Value.vfloat (decodeF32 (rest.take 4))))]
              "laSmpRate" = some (decodeF32 (rest.take 4)) := rfl
          rw [hlook] at hok
          exact ⟨afterVersion_laSmp _ _ _ _ hok, rfl⟩
      · have hshort : parseDesc wfmHeaderAppendV2 rest strict = .error PError.structError := by
          have hlt : rest.length < 4 := by omega
          simp [wfmHeaderAppendV2, descOfList, parseDesc, parseField, readPrim, psize, hlt]
        rw [hshort] at hok
        exact absurd hok (by simp)
    · rw [hdec, appendV2_eval rest strict h4, hneg]
      simp
  · simp [decodeAfterHeader, detectVersion, hbm0, hbm4]

/-- Concrete instances of `version_detection`: a remainder matching the
payload exactly (old format), a remainder four bytes larger (new format),
and a mismatched remainder (fatal). -/
theorem version_detection_witness :
    ((([100] : List Nat).length : Int) - totalPointBytes baseHdr (computePoints baseHdr) = 0) ∧
    decodeAfterHeader baseHdr [100] true = afterVersion baseHdr none [100] ∧
    ((([9, 0, 0, 0, 100] : List Nat).length : Int) -
      totalPointBytes baseHdr (computePoints baseHdr) = 4) ∧
    decodeAfterHeader baseHdr [9, 0, 0, 0, 100] true =
      (match parseDesc wfmHeaderAppendV2 [9, 0, 0, 0, 100] true with
       | .error e => .error e
       | .ok (r, rest') => afterVersion baseHdr (rF32 r "laSmpRate") rest') ∧
    decodeAfterHeader { baseHdr with points1 := 7 } [100] true =
      .error (.formatError "File length is not as expected") :=
  ⟨by decide,
   ((version_detection baseHdr [100] true).1 (by decide)).1,
   by decide,
   ((version_detection baseHdr [9, 0, 0, 0, 100] true).2.1 (by decide)).1,
   (version_detection { baseHdr with points1 := 7 } [100] true).2.2 (by decide) (by decide)⟩

/-! ## C4: the trigger-mode consistency check -/

/-- C4 counterexample: a parsed file with top-level trigger mode 1 while
trigger header 1 carries mode 0 aborts with `AssertionError` (from the
source's `assert` statement), which is NOT a `FormatError`. -/
theorem trigger_mode_mismatch_not_formatError :
    decodeAfterHeader { baseHdr with trigMode := 1 } [100] true =
      .error PError.assertionError ∧
    PError.isFormatError PError.assertionError = false :=
  ⟨rfl, rfl⟩

/-- C4 (amended): in non-alternate mode (trigger-mode byte ≠ 4), once the
active-channel lookup has succeeded, a top-level trigger mode differing
from trigger header 1's mode aborts the interpretation with
`AssertionError` (not `FormatError`); when the two agree, decoding
continues with the body of the interpretation stage. -/
theorem trigger_mode_assert (h : WfmHeader) (laSmp : Option F32)
    (d1 d2 laD : Option (List Nat)) (nm : String)
    (hac : pyIndex ["CH1", "CH2", "REF", "MATH", "LA"] (h.activeCh - 1) = some nm)
    (hm4 : h.trigMode ≠ 4) :
    (h.trigMode ≠ h.trigHdr1.mode →
      interpret h laSmp d1 d2 laD = .error PError.assertionError) ∧
    (h.trigMode = h.trigHdr1.mode →
      interpret h laSmp d1 d2 laD = interpretBody h laSmp d1 d2 laD nm) := by
  constructor
  · intro hne
    have hcond : ((h.trigMode == 4) || h.trigMode == h.trigHdr1.mode) = false := by
      simp [hm4, hne]
    simp [interpret, hac, hcond]
  · intro heq
    have hcond : ((h.trigMode == 4) || h.trigMode == h.trigHdr1.mode) = true := by
      simp [heq]
    simp [interpret, hac, hcond]

/-- Concrete instances of `trigger_mode_assert`: mode 1 vs header mode 0
asserts; matching mode 0 continues into the interpretation body. -/
theorem trigger_mode_assert_witness :
    interpret { baseHdr with trigMode := 1 } none (some [100]) none none =
      .error PError.assertionError ∧
    interpret baseHdr none (some [100]) none none =
      interpretBody baseHdr none (some [100]) none none "CH1" :=
  ⟨(trigger_mode_assert { baseHdr with trigMode := 1 } none (some [100]) none none "CH1"
      rfl (by decide)).1 (by decide),
   (trigger_mode_assert baseHdr none (some [100]) none none "CH1"
      rfl (by decide)).2 rfl⟩

/-! ## C2: the sample-payload read loop indexes points by `dataIdx` -/

/-- A header whose channel 1 is not written while channel 2 is written with
its own (nonzero) point count of 1, and channel 1's point count is 2. -/
def hdrC2 : WfmHeader :=
  { baseHdr with channel1 := chanOff, channel2 := chanOn, points1 := 2, points2 := 1 }

/-- C2 exhibit: by the code's own payload-size computation this file needs
exactly one sample byte (channel 2's own point count), and the stream
supplies exactly that byte, so version detection passes — yet the read loop
indexes the point list with `dataIdx` (= 0, since channel 1 was skipped)
and tries to read channel 1's two points, crashing with `EOFError` instead
of reading channel 2's single sample. -/
theorem sample_read_dataIdx_bug :
    computePoints hdrC2 = (2, 1) ∧
    totalPointBytes hdrC2 (computePoints hdrC2) = 1 ∧
    decodeAfterHeader hdrC2 [100] true = .error PError.eofError :=
  ⟨rfl, rfl, rfl⟩


/-! ## C8: trigger descriptions per channel -/

/-- In alternate-trigger mode, a successfully built channel is either not
written (no data keys) or carries the trigger description decoded from its
own trigger header with `source` overridden by the channel's own name. -/
theorem buildChannel_alt (h : WfmHeader) (c : Nat) (shared : Option TrigDict)
    (data : Option (List Nat)) (cd : ChannelDict)
    (hok : buildChannel h c true shared data = .ok cd) :
    ((if c = 0 then h.channel1 else h.channel2).written = 0 ∧ cd.data = none) ∨
    ∃ t dd, parseTriggerHdr (if c = 0 then h.trigHdr1 else h.trigHdr2) = .ok t ∧
      cd.data = some dd ∧
      dd.triggers = { t with source := if c = 0 then ("CH1" : String) else "CH2" } := by
  simp only [buildChannel, reduceIte] at hok
  set ch := (if c = 0 then h.channel1 else h.channel2) with hch
  set name := (if c = 0 then ("CH1" : String) else "CH2") with hname
  set tg := (if c = 0 then h.trigHdr1 else h.trigHdr2) with htg
  split at hok
  · split at hok
    · exact Except.noConfusion hok
    rename_i t htrig
    split at htrig
    · exact Except.noConfusion htrig
    rename_i t0 ht0
    simp only [Except.ok.injEq] at htrig
    subst htrig
    split at hok
    · exact Except.noConfusion hok
    rename_i rawAll
    split at hok
    · exact Except.noConfusion hok
    rename_i ts hts
    cases hok
    right
    exact ⟨t0, _, ht0, rfl, rfl⟩
  · cases hok
    left
    rename_i hw
    exact ⟨by omega, rfl⟩

/-- In non-alternate mode, a successfully built channel is either not
written or carries exactly the shared trigger description. -/
theorem buildChannel_nonalt (h : WfmHeader) (c : Nat) (shared : Option TrigDict)
    (data : Option (List Nat)) (cd : ChannelDict)
    (hok : buildChannel h c false shared data = .ok cd) :
    ((if c = 0 then h.channel1 else h.channel2).written = 0 ∧ cd.data = none) ∨
    ∃ tr dd, shared = some tr ∧ cd.data = some dd ∧ dd.triggers = tr := by
  simp only [buildChannel] at hok
  set ch := (if c = 0 then h.channel1 else h.channel2) with hch
  set name := (if c = 0 then ("CH1" : String) else "CH2") with hname
  cases shared with
  | none =>
    split at hok
    · split at hok
      · exact Except.noConfusion hok
      rename_i t htrig
      split at htrig
      · rename_i hcontra
        exact absurd hcontra (by simp)
      · exact Except.noConfusion htrig
    · cases hok
      left
      rename_i hw
      exact ⟨by omega, rfl⟩
  | some tr =>
    split at hok
    · split at hok
      · exact Except.noConfusion hok
      rename_i t htrig
      split at htrig
      · rename_i hcontra
        exact absurd hcontra (by simp)
      simp only [Except.ok.injEq] at htrig
      subst htrig
      split at hok
      · exact Except.noConfusion hok
      rename_i rawAll
      split at hok
      · exact Except.noConfusion hok
      rename_i ts hts
      cases hok
      right
      exact ⟨tr, _, rfl, rfl, rfl⟩
    · cases hok
      left
      rename_i hw
      exact ⟨by omega, rfl⟩

/-- A successful interpretation body builds both channels against its own
shared-trigger result (`sd.triggers`), which is the decode of trigger
header 1 in non-alternate mode and absent in alternate mode. -/
theorem interpretBody_spec (h : WfmHeader) (laSmp : Option F32)
    (d1 d2 laD : Option (List Nat)) (ac : String) (sd : ScopeData)
    (hok : interpretBody h laSmp d1 d2 laD ac = .ok sd) :
    buildChannel h 0 (h.trigMode == 4) sd.triggers d1 = .ok sd.channel1 ∧
    buildChannel h 1 (h.trigMode == 4) sd.triggers d2 = .ok sd.channel2 ∧
    ((h.trigMode == 4) = false →
      ∃ tr, parseTriggerHdr h.trigHdr1 = .ok tr ∧ sd.triggers = some tr) ∧
    ((h.trigMode == 4) = true → sd.triggers = none) := by
  simp only [interpretBody] at hok
  cases halt : (h.trigMode == 4) with
  | true =>
    rw [halt] at hok
    split at hok
    · exact Except.noConfusion hok
    rename_i shared hshared
    split at hshared
    · rename_i hcontra
      exact absurd hcontra (by simp)
    simp only [Except.ok.injEq] at hshared
    subst hshared
    split at hok
    · exact Except.noConfusion hok
    rename_i ch1 hch1
    split at hok
    · exact Except.noConfusion hok
    rename_i ch2 hch2
    split at hok
    · exact Except.noConfusion hok
    rename_i la hla
    cases hok
    exact ⟨hch1, hch2, fun hf => absurd hf (by simp), fun _ => rfl⟩
  | false =>
    rw [halt] at hok
    split at hok
    · exact Except.noConfusion hok
    rename_i shared hshared
    split at hshared
    · rename_i hcond
      split at hshared
      · exact Except.noConfusion hshared
      rename_i tr htr
      simp only [Except.ok.injEq] at hshared
      subst hshared
      split at hok
      · exact Except.noConfusion hok
      rename_i ch1 hch1
      split at hok
      · exact Except.noConfusion hok
      rename_i ch2 hch2
      split at hok
      · exact Except.noConfusion hok
      rename_i la hla
      cases hok
      exact ⟨hch1, hch2, fun _ => ⟨tr, htr, rfl⟩, fun ht => absurd ht (by simp)⟩
    · rename_i hcontra
      exact absurd (by simp : (!false) = true) hcontra

/-- A successful decode factors through a successful interpretation body. -/
theorem decode_ok_body (h : WfmHeader) (rest : List Nat) (strict : Bool) (sd : ScopeData)
    (hok : decodeAfterHeader h rest strict = .ok sd) :
    ∃ laSmp d1 d2 laD ac, interpretBody h laSmp d1 d2 laD ac = .ok sd := by
  simp only [decodeAfterHeader] at hok
  split at hok
  · exact Except.noConfusion hok
  rename_i laSmp rest' hdet
  simp only [afterVersion] at hok
  split at hok
  · exact Except.noConfusion hok
  rename_i d1 d2 laD srest hread
  simp only [interpret] at hok
  split at hok
  · exact Except.noConfusion hok
  rename_i ac hac
  split at hok
  · exact ⟨laSmp, d1, d2, laD, ac, hok⟩
  · exact Except.noConfusion hok

/-- C8: in a successfully decoded file with trigger-mode byte 4 (alternate
trigger), each written analog channel carries the trigger description
decoded from its own trigger header with `source` forced to its own channel
name, while an unwritten channel has no data keys; in any other mode, one
shared description decoded from trigger header 1 is stored in the result
and every written channel carries exactly it. -/
theorem alternate_trigger_sources (h : WfmHeader) (rest : List Nat) (strict : Bool)
    (sd : ScopeData) (hok : decodeAfterHeader h rest strict = .ok sd) :
    (h.trigMode = 4 →
      ((h.channel1.written = 0 ∧ sd.channel1.data = none) ∨
        ∃ t dd, parseTriggerHdr h.trigHdr1 = .ok t ∧ sd.channel1.data = some dd ∧
          dd.triggers = { t with source := "CH1" }) ∧
      ((h.channel2.written = 0 ∧ sd.channel2.data = none) ∨
        ∃ t dd, parseTriggerHdr h.trigHdr2 = .ok t ∧ sd.channel2.data = some dd ∧
          dd.triggers = { t with source := "CH2" })) ∧
    (h.trigMode ≠ 4 →
      ∃ tr, parseTriggerHdr h.trigHdr1 = .ok tr ∧ sd.triggers = some tr ∧
        ((h.channel1.written = 0 ∧ sd.channel1.data = none) ∨
          ∃ dd, sd.channel1.data = some dd ∧ dd.triggers = tr) ∧
        ((h.channel2.written = 0 ∧ sd.channel2.data = none) ∨
          ∃ dd, sd.channel2.data = some dd ∧ dd.triggers = tr)) := by
  obtain ⟨laSmp, d1, d2, laD, ac, hbody⟩ := decode_ok_body h rest strict sd hok
  obtain ⟨hbc1, hbc2, hsharedF, hsharedT⟩ :=
    interpretBody_spec h laSmp d1 d2 laD ac sd hbody
  constructor
  · intro h4
    have halt : (h.trigMode == 4) = true := by simp [h4]
    rw [halt] at hbc1 hbc2
    have r1 := buildChannel_alt h 0 sd.triggers d1 sd.channel1 hbc1
    have r2 := buildChannel_alt h 1 sd.triggers d2 sd.channel2 hbc2
    simp only [reduceIte] at r1 r2
    exact ⟨r1, r2⟩
  · intro h4
    have halt : (h.trigMode == 4) = false := by simp [h4]
    rw [halt] at hbc1 hbc2
    obtain ⟨tr, htr, hshared⟩ := hsharedF halt
    have r1 := buildChannel_nonalt h 0 sd.triggers d1 sd.channel1 hbc1
    have r2 := buildChannel_nonalt h 1 sd.triggers d2 sd.channel2 hbc2
    simp only [reduceIte] at r1 r2
    refine ⟨tr, htr, hshared, ?_, ?_⟩
    · rcases r1 with ⟨hw, hd⟩ | ⟨tr1, dd, hs1, hd1, ht1⟩
      · exact Or.inl ⟨hw, hd⟩
      · refine Or.inr ⟨dd, hd1, ?_⟩
        rw [hshared] at hs1
        simp only [Option.some.injEq] at hs1
        rw [ht1, ← hs1]
    · rcases r2 with ⟨hw, hd⟩ | ⟨tr2, dd, hs2, hd2, ht2⟩
      · exact Or.inl ⟨hw, hd⟩
      · refine Or.inr ⟨dd, hd2, ?_⟩
        rw [hshared] at hs2
        simp only [Option.some.injEq] at hs2
        rw [ht2, ← hs2]

/-- A timebase whose sample rate is `+inf` (keeps concrete evaluation free
of rational-number decisions). -/
def timeInf : TimeHeader := { timeOne with smpRate := F32.inf }

/-- A header in alternate-trigger mode (trigger-mode byte 4) with channel 1
written. -/
def hdrC8 : WfmHeader := { baseHdr with trigMode := 4, time1 := timeInf, time2 := timeInf }

/-- The scope result of decoding `hdrC8` over a one-byte payload. -/
def sdC8 : ScopeData := (decodeAfterHeader hdrC8 [100] true).toOption.getD default

/-- Concrete instance of `alternate_trigger_sources`: the alternate-mode
decode succeeds and channel 1's trigger description comes from trigger
header 1 with `source` forced to "CH1". -/
theorem alternate_trigger_sources_witness :
    decodeAfterHeader hdrC8 [100] true = .ok sdC8 ∧
    hdrC8.trigMode = 4 ∧
    ((hdrC8.channel1.written = 0 ∧ sdC8.channel1.data = none) ∨
      ∃ t dd, parseTriggerHdr hdrC8.trigHdr1 = .ok t ∧ sdC8.channel1.data = some dd ∧
        dd.triggers = { t with source := "CH1" }) :=
  ⟨rfl, rfl, ((alternate_trigger_sources hdrC8 [100] true sdC8 rfl).1 rfl).1⟩

/-! ## C6: raw-sample-to-volts conversion -/

/-- C6: for a written analog channel, every raw unsigned-byte sample `x` is
converted to volts as `((125 - x) / 25 * scale - shift) * sign`, where
`scale = scaleM * 1e-6 * probeAttenuation`, `shift = shiftM / 25 * scale`,
and `sign = -1` iff the invert flag is set (stated in exact rational
arithmetic over the channel's header fields). -/
theorem volts_conversion (h : WfmHeader) (c : Nat) (alt : Bool) (shared : Option TrigDict)
    (data : Option (List Nat)) (cd : ChannelDict) (dd : ChannelData) (ch : ChanHeader) (pa : ℚ)
    (hch : (if c = 0 then h.channel1 else h.channel2) = ch)
    (hok : buildChannel h c alt shared data = .ok cd)
    (hdd : cd.data = some dd)
    (hpa : ch.probeAtt = F32.finite pa) :
    dd.volts = dd.raw.map (fun (x : ℕ) =>
      F32.finite (((125 - (x : ℚ)) / 25 * ((ch.scaleM : ℚ) * (1 / 1000000) * pa)
        - (ch.shiftM : ℚ) / 25 * ((ch.scaleM : ℚ) * (1 / 1000000) * pa))
        * (if ch.invertM ≠ 0 then (-1 : ℚ) else 1))) := by
  simp only [buildChannel] at hok
  rw [hch] at hok
  split at hok
  · split at hok
    · exact Except.noConfusion hok
    rename_i trig htrig
    split at hok
    · exact Except.noConfusion hok
    rename_i rawAll
    split at hok
    · exact Except.noConfusion hok
    rename_i ts hts
    cases hok
    simp only [Option.some.injEq] at hdd
    subst hdd
    have hfun : ∀ x : Nat,
        fmul (fsub (fmul (F32.finite ((125 - (x : ℚ)) / 25))
            (fmul (fmul (F32.finite (ch.scaleM : ℚ)) (F32.finite (1 / 1000000 : ℚ))) ch.probeAtt))
          (fmul (F32.finite ((ch.shiftM : ℚ) / 25))
            (fmul (fmul (F32.finite (ch.scaleM : ℚ)) (F32.finite (1 / 1000000 : ℚ))) ch.probeAtt)))
          (F32.finite ((if ch.invertM ≠ 0 then -1 else 1 : ℤ) : ℚ)) =
        F32.finite (((125 - (x : ℚ)) / 25 * ((ch.scaleM : ℚ) * (1 / 1000000) * pa)
          - (ch.shiftM : ℚ) / 25 * ((ch.scaleM : ℚ) * (1 / 1000000) * pa))
          * (if ch.invertM ≠ 0 then (-1 : ℚ) else 1)) := by
      intro x
      rw [hpa]
      by_cases hinv : ch.invertM ≠ 0 <;>
        simp only [hinv, if_pos, if_neg, fmul, fsub, fadd, fneg, F32.finite.injEq] <;>
        push_cast <;> ring
    simp only [hfun]
  · cases hok
    exact absurd hdd (by simp)

/-- Channel built from `hdrC8`'s channel 1 with the single raw sample 125. -/
def cdC6 : ChannelDict :=
  (buildChannel hdrC8 0 true none (some [125])).toOption.getD default

/-- The enabled-channel payload of `cdC6`. -/
def ddC6 : ChannelData := cdC6.data.getD default

/-- Concrete instance of `volts_conversion`: with `scaleM = 1000000`,
`probeAttenuation = 1`, `shiftM = 0` and the invert flag clear, the raw
sample 125 converts to exactly 0 volts. -/
theorem volts_conversion_witness :
    buildChannel hdrC8 0 true none (some [125]) = .ok cdC6 ∧
    cdC6.data = some ddC6 ∧ ddC6.raw = [125] ∧
    hdrC8.channel1.scaleM = 1000000 ∧ hdrC8.channel1.probeAtt = F32.finite 1 ∧
    hdrC8.channel1.shiftM = 0 ∧ hdrC8.channel1.invertM = 0 ∧
    ddC6.volts = [F32.finite 0] := by
  have h1 : buildChannel hdrC8 0 true none (some [125]) = .ok cdC6 := rfl
  have h2 : cdC6.data = some ddC6 := rfl
  have h3 := volts_conversion hdrC8 0 true none (some [125]) cdC6 ddC6 hdrC8.channel1 1
    rfl h1 h2 rfl
  refine ⟨h1, h2, rfl, rfl, rfl, rfl, rfl, ?_⟩
  rw [h3, show ddC6.raw = [125] from rfl]
  norm_num [hdrC8, baseHdr, chanOn, chanOff]
